import Mathlib

/-!
Verification of the dev-cli patch-management engine (BrowserOS `build/modules/dev_cli/`).

This file gives a shallow embedding of the Python sources
`apply.py`, `extract.py`, `feature.py` and `utils.py` and proves or refutes
the frozen claims about them.

Modelling conventions:
* Python strings are Lean `String`s; the Python string primitives used by the
  code (`startswith`, `split()`, `splitlines()`, `strip()`, `'\n'.join`,
  `endswith`, the `in` substring test) are re-implemented by structural
  recursion over `List Char` so that every theorem can be checked by kernel
  evaluation.  `splitlines` handles the `'\n'` separator, which is the only
  line terminator produced by the git invocations the code parses.
* Python dicts (insertion ordered, assignment overwrites in place) are
  association lists `List (String × α)` with `dictInsert` / `dictGet`.
* Subprocess results and the file system are passed in explicitly: a git call
  becomes a `GitResult` value, a patch file on disk becomes a `PatchEnv` /
  `PatchRead` value, the interactive conflict prompt becomes the user's
  eventual valid `Choice` (invalid input only reprompts, so only the final
  valid choice is observable).
* `set(...)` unions in `feature.py` have unspecified iteration order in
  Python; the embedding fixes one canonical order (`List.dedup` of the
  concatenation).  All theorems about those lists are set-level.
-/

/-- `charsPre n h` is true iff `n` is a prefix of `h` (model of `str.startswith`). -/
def charsPre : List Char → List Char → Bool
  | [], _ => true
  | _ :: _, [] => false
  | a :: as, b :: bs => a = b && charsPre as bs

/-- Substring occurrence on character lists (model of Python `in` on strings). -/
def charsContain (needle : List Char) : List Char → Bool
  | [] => charsPre needle []
  | c :: rest => charsPre needle (c :: rest) || charsContain needle rest

/-- Python `s.startswith(p)`. -/
def pyStartsWith (s p : String) : Bool := charsPre p.data s.data

/-- Python `needle in hay` for strings. -/
def pyIn (needle hay : String) : Bool := charsContain needle.data hay.data

/-- Python `s.endswith(suf)`. -/
def pyEndsWith (s suf : String) : Bool := charsPre suf.data.reverse s.data.reverse

/-- Helper for `splitlines`: split a character list at newline characters. -/
def splitLinesAux : List Char → List Char → List (List Char)
  | [], acc => if acc = [] then [] else [acc.reverse]
  | c :: rest, acc =>
    if c = '\n' then acc.reverse :: splitLinesAux rest []
    else splitLinesAux rest (c :: acc)

/-- Python `s.splitlines()` (newline-terminated input yields no trailing empty line). -/
def splitlines (s : String) : List String :=
  (splitLinesAux s.data []).map String.mk

/-- Helper for `pySplit`: split at whitespace runs, discarding empty pieces. -/
def splitWsAux : List Char → List Char → List (List Char)
  | [], acc => if acc = [] then [] else [acc.reverse]
  | c :: rest, acc =>
    if c.isWhitespace then
      if acc = [] then splitWsAux rest [] else acc.reverse :: splitWsAux rest []
    else splitWsAux rest (c :: acc)

/-- Python `s.split()` (no separator argument: whitespace runs, no empty tokens). -/
def pySplit (s : String) : List String :=
  (splitWsAux s.data []).map String.mk

/-- Python `s.strip()`. -/
def pyStrip (s : String) : String :=
  String.mk (((s.data.dropWhile Char.isWhitespace).reverse.dropWhile Char.isWhitespace).reverse)

/-- Python `s[n:]`. -/
def strDrop (s : String) (n : Nat) : String := String.mk (s.data.drop n)

/-- Python `'\n'.join(lines)`. -/
def joinNl : List String → String
  | [] => ""
  | [s] => s
  | s :: rest => s ++ "\n" ++ joinNl rest

/-- Python dict item assignment `d[k] = v`: overwrite in place if the key is
present, otherwise append at the end (dicts preserve insertion order). -/
def dictInsert {α : Type} : List (String × α) → String → α → List (String × α)
  | [], k, v => [(k, v)]
  | p :: rest, k, v => if p.1 = k then (k, v) :: rest else p :: dictInsert rest k v

/-- Python dict lookup `d.get(k)` / `d[k]`. -/
def dictGet {α : Type} : List (String × α) → String → Option α
  | [], _ => none
  | p :: rest, k => if p.1 = k then some p.2 else dictGet rest k

/-- Python `k in d` for dicts. -/
def dictHasKey {α : Type} (m : List (String × α)) (k : String) : Bool :=
  m.any (fun p => decide (p.1 = k))

/-! ## DiffParser — `utils.parse_diff_output` -/

/-- The file path extracted from a `diff --git` header line: the third
whitespace token, with a leading `a/` stripped (`parts[2][2:] if
parts[2].startswith('a/') else parts[2]`). -/
def headerPath (line : String) : String :=
  let p2 := (pySplit line).getD 2 ""
  if pyStartsWith p2 "a/" then strDrop p2 2 else p2

/-- Loop state of `parse_diff_output`: the accumulated dict, the current file
(`None` when the last header was unparsable or no header was seen yet) and the
lines accumulated for the current block. -/
structure ParseState where
  patches : List (String × Option String)
  current_file : Option String
  current_patch : List String
deriving DecidableEq

/-- The flush performed when a new `diff --git` header is met:
`if current_file and current_patch: patches[current_file] = '\n'.join(current_patch)`.
Python truthiness: `current_file` must be non-`None` and non-empty,
`current_patch` non-empty. -/
def flushCurrent (st : ParseState) : List (String × Option String) :=
  match st.current_file with
  | some cf =>
    if cf ≠ "" ∧ st.current_patch ≠ [] then
      dictInsert st.patches cf (some (joinNl st.current_patch))
    else st.patches
  | none => st.patches

/-- The `deleted file` branch: `if current_file: patches[current_file] = None`. -/
def markDeleted (st : ParseState) : ParseState :=
  match st.current_file with
  | some cf =>
    if cf ≠ "" then ⟨dictInsert st.patches cf none, st.current_file, st.current_patch⟩
    else st
  | none => st

/-- The fall-through branch: `elif current_file: current_patch.append(line)`. -/
def accumulateLine (st : ParseState) (line : String) : ParseState :=
  match st.current_file with
  | some cf =>
    if cf ≠ "" then ⟨st.patches, st.current_file, st.current_patch ++ [line]⟩
    else st
  | none => st

/-- One iteration of the `for line in diff_output.splitlines()` loop of
`parse_diff_output`. -/
def processLine (st : ParseState) (line : String) : ParseState :=
  if pyStartsWith line "diff --git" then
    if (pySplit line).length ≥ 3 then
      ⟨flushCurrent st, some (headerPath line), [line]⟩
    else
      ⟨flushCurrent st, none, []⟩
  else if pyStartsWith line "deleted file" then
    markDeleted st
  else
    accumulateLine st line

/-- The whole loop of `parse_diff_output`. -/
def parseLines : List String → ParseState → ParseState
  | [], st => st
  | l :: rest, st => parseLines rest (processLine st l)

/-- The save-last-patch epilogue of `parse_diff_output`:
`if current_file: if current_patch: patches[...] = join(...) elif current_file
not in patches: patches[current_file] = None`. -/
def finalFlush (st : ParseState) : List (String × Option String) :=
  match st.current_file with
  | some cf =>
    if cf ≠ "" then
      if st.current_patch ≠ [] then
        dictInsert st.patches cf (some (joinNl st.current_patch))
      else if dictHasKey st.patches cf then st.patches
      else dictInsert st.patches cf none
    else st.patches
  | none => st.patches

/-- `utils.parse_diff_output` on an already split line list. -/
def parse_diff_output_lines (lines : List String) : List (String × Option String) :=
  finalFlush (parseLines lines ⟨[], none, []⟩)

/-- `utils.parse_diff_output`: map a raw multi-file diff to
path ↦ (`some` patch body | `none` = deleted). -/
def parse_diff_output (diff_output : String) : List (String × Option String) :=
  parse_diff_output_lines (splitlines diff_output)

/-! ## PatchApplier and BatchRunner — `utils.apply_single_patch`,
`utils.handle_patch_conflict`, `apply.apply_all_patches`,
`apply.apply_feature_patches` -/

/-- The user's eventual valid answer to the conflict prompt of
`handle_patch_conflict` (1 = fix manually, 2 = skip, 3 = abort).  Invalid
answers only reprompt, so only the final valid choice is observable. -/
inductive Choice where
  | fix
  | skip
  | abort
deriving DecidableEq

/-- The environment one patch application sees: whether the patch file exists
on disk, the exit status of the strict `git apply` and of `git apply --3way`,
the stderr text of the failed 3-way attempt, and the user's conflict choice. -/
structure PatchEnv where
  found : Bool
  strictOk : Bool
  threeWayOk : Bool
  errText : String
  choice : Choice
deriving DecidableEq

/-- One entry of the ordered batch: its display path, the per-patch
environment, and the outcome of the dry-run `git apply --check`. -/
structure BatchItem where
  rel : String
  env : PatchEnv
  checkOk : Bool
deriving DecidableEq

/-- `utils.handle_patch_conflict`: the menu-driven conflict resolver. -/
def handle_patch_conflict (patch_name : String) (choice : Choice) : Bool × String :=
  match choice with
  | Choice.fix => (true, "Manually fixed: " ++ patch_name)
  | Choice.skip => (true, "Skipped: " ++ patch_name)
  | Choice.abort => (false, "Aborted by user")

/-- `utils.apply_single_patch`: strict apply, then 3-way, then the interactive
resolver (or a plain failure carrying the tool's stderr when not interactive). -/
def apply_single_patch (patch_name : String) (env : PatchEnv) (interactive : Bool) :
    Bool × String :=
  if env.found = false then (false, "Patch file not found: " ++ patch_name)
  else if env.strictOk then (true, "Applied: " ++ patch_name)
  else if env.threeWayOk then (true, "Applied (3-way): " ++ patch_name)
  else if interactive then handle_patch_conflict patch_name env.choice
  else (false, "Failed: " ++ patch_name ++ " - " ++ env.errText)

/-- The `for patch_path in patch_files` loop of `apply.apply_all_patches`.
In dry-run mode every item is checked and nothing ever breaks the loop;
otherwise a failure breaks the loop exactly when `continue_on_error` is false
and the failure message contains `"Aborted"`. -/
def apply_loop : List BatchItem → Bool → Bool → Bool → List (String × Bool × String)
  | [], _, _, _ => []
  | it :: rest, dry_run, continue_on_error, interactive =>
    if dry_run then
      (if it.checkOk then (it.rel, true, "Would apply cleanly")
       else (it.rel, false, "Would fail to apply")) ::
        apply_loop rest dry_run continue_on_error interactive
    else
      let res := apply_single_patch it.rel it.env interactive
      if res.1 = true then
        (it.rel, true, res.2) :: apply_loop rest dry_run continue_on_error interactive
      else if continue_on_error = false ∧ pyIn "Aborted" res.2 = true then
        [(it.rel, false, res.2)]
      else
        (it.rel, false, res.2) :: apply_loop rest dry_run continue_on_error interactive

/-- The `for file_path in file_list` loop of `apply.apply_feature_patches`.
It differs from `apply_loop` in checking patch-file existence up front: a
missing patch records a failure and breaks whenever `continue_on_error` is
false. -/
def apply_feature_loop : List BatchItem → Bool → Bool → Bool → List (String × Bool × String)
  | [], _, _, _ => []
  | it :: rest, dry_run, continue_on_error, interactive =>
    if it.env.found = false then
      if continue_on_error = false then [(it.rel, false, "Patch file not found")]
      else (it.rel, false, "Patch file not found") ::
        apply_feature_loop rest dry_run continue_on_error interactive
    else if dry_run then
      (if it.checkOk then (it.rel, true, "Would apply cleanly")
       else (it.rel, false, "Would fail to apply")) ::
        apply_feature_loop rest dry_run continue_on_error interactive
    else
      let res := apply_single_patch it.rel it.env interactive
      if res.1 = true then
        (it.rel, true, res.2) :: apply_feature_loop rest dry_run continue_on_error interactive
      else if continue_on_error = false ∧ pyIn "Aborted" res.2 = true then
        [(it.rel, false, res.2)]
      else
        (it.rel, false, res.2) :: apply_feature_loop rest dry_run continue_on_error interactive

/-- `apply.apply_all_patches`.  `repoOk` is the `git rev-parse
--is-inside-work-tree` check, `patchesDirFound` is `patches_dir.exists()`,
`items` is the sorted `*.patch` list.  The returned pair is the function's
boolean result together with its local `results` list (one entry per attempted
patch, in attempt order); `commit_each` only triggers a git commit side effect
and does not influence either component. -/
def apply_all_patches (repoOk patchesDirFound : Bool) (items : List BatchItem)
    (commit_each dry_run continue_on_error interactive : Bool) :
    Bool × List (String × Bool × String) :=
  if repoOk = false then (false, [])
  else if patchesDirFound = false then (true, [])
  else if items = [] then (true, [])
  else
    let results := apply_loop items dry_run continue_on_error interactive
    (decide ((results.filter (fun r => decide (r.2.1 = false))).length = 0) || continue_on_error,
     results)

/-- The exit-status policy of the `apply all` / `apply feature` commands:
`if not success and not continue_on_error: ctx.exit(1)`. -/
def apply_all_exit (success continue_on_error : Bool) : Nat :=
  if success = false ∧ continue_on_error = false then 1 else 0

/-! ## FeatureRegistry — `feature.py` and `utils.get_commit_changed_files` -/

/-- Exit status, stdout pair of a git subprocess call. -/
structure GitResult where
  returncode : Int
  stdout : String
deriving DecidableEq

/-- `utils.get_commit_changed_files`: `git diff-tree --name-only`; on failure
log and return `[]`, otherwise strip, split into lines, strip each and drop
empties. -/
def get_commit_changed_files (res : GitResult) : List String :=
  if res.returncode ≠ 0 then []
  else ((splitlines (pyStrip res.stdout)).map pyStrip).filter (fun f => decide (f ≠ ""))

/-- One feature entry of `features.yaml`: optional `description` field and the
`files` list. -/
structure FeatureData where
  description : Option String
  files : List String
deriving DecidableEq

/-- The `features` mapping of `features.yaml`, insertion ordered. -/
def Features : Type := List (String × FeatureData)

instance : DecidableEq Features := by
  unfold Features
  infer_instance

/-- Outcome of opening `features.yaml`: readable with given content, absent,
or present but unreadable/corrupt (`yaml.safe_load` raised). -/
inductive LoadResult where
  | ok (features : Features)
  | missing
  | failed
deriving DecidableEq

/-- `feature.load_features_yaml`: an absent file yields `{}`; a load exception
is logged and ALSO yields `{}` (the error is swallowed, not propagated). -/
def load_features_yaml : LoadResult → Features
  | LoadResult.ok features => features
  | LoadResult.missing => []
  | LoadResult.failed => []

/-- Python truthiness of the optional `description` argument
(`if description:`): `None` and `""` are falsy. -/
def descTruthy : Option String → Bool
  | none => false
  | some s => decide (s ≠ "")

/-- Python `description or default`. -/
def pyOrDefault (d : Option String) (defaultText : String) : String :=
  match d with
  | some s => if s ≠ "" then s else defaultText
  | none => defaultText

/-- The steps 3–4 mutation of `feature.add_feature_from_commit`: if the
feature exists, union the changed files into its file set when any of them is
new (also overwriting a truthy description), otherwise leave it untouched;
if the feature does not exist, create it with the changed-file list and a
default or supplied description.  Python's `list(existing | set(changed))` has
unspecified order; the embedding uses `(existing ++ changed).dedup`, and all
theorems about the file list are set-level. -/
def feature_add_update (features : Features) (feature_name : String)
    (changed_files : List String) (description : Option String)
    (commit_hash : String) : Features :=
  match dictGet features feature_name with
  | some fd =>
    if changed_files.all (fun c => decide (c ∈ fd.files)) then features
    else
      dictInsert features feature_name
        ⟨if descTruthy description then description else fd.description,
         (fd.files ++ changed_files).dedup⟩
  | none =>
    dictInsert features feature_name
      ⟨some (pyOrDefault description ("Feature added from commit " ++ commit_hash)),
       changed_files⟩

/-- `feature.add_feature_from_commit`: compute the changed files of the
revision, return `True` early (with only a warning and no save) when the list
is empty, otherwise load the registry, mutate it in memory and save.  The
result pair is the function's boolean return value together with the document
passed to `save_features_yaml` (`none` when no save happens). -/
def add_feature_from_commit (gitRes : GitResult) (loadRes : LoadResult)
    (feature_name commit_hash : String) (description : Option String) :
    Bool × Option Features :=
  let changed_files := get_commit_changed_files gitRes
  if changed_files = [] then (true, none)
  else
    let features := load_features_yaml loadRes
    (true, some (feature_add_update features feature_name changed_files description commit_hash))

/-- Exit-status policy of the `feature add` command: exit 1 exactly when
`add_feature_from_commit` returned `False`. -/
def feature_add_exit (ok : Bool) : Nat := if ok then 0 else 1

/-- Evolution of the on-disk registry across one `feature add` invocation:
unchanged when the changed-file list is empty, otherwise replaced by the
mutated document. -/
def add_registry_step (reg : Features) (feature_name : String)
    (changed_files : List String) (description : Option String)
    (commit_hash : String) : Features :=
  if changed_files = [] then reg
  else feature_add_update reg feature_name changed_files description commit_hash

/-! ## Combined-patch generation — `feature.generate_feature_patch` -/

/-- What reading one listed file's patch yields: the file is absent, present
but unreadable (`read_text` raised), or read successfully. -/
inductive PatchRead where
  | notFound
  | readError
  | ok (content : String)
deriving DecidableEq

/-- `some` body when the patch was read successfully. -/
def readBody : PatchRead → Option String
  | PatchRead.ok c => some c
  | _ => none

/-- True when the file ends up in `missing_files` (absent or unreadable). -/
def isMissingRead : PatchRead → Bool
  | PatchRead.ok _ => false
  | _ => true

/-- The collection loop of `generate_feature_patch`: found bodies and missing
files, both in stored list order. -/
def collectPatches (store : String → PatchRead) : List String → List String × List String
  | [] => ([], [])
  | fp :: rest =>
    let pm := collectPatches store rest
    match store fp with
    | PatchRead.ok c => (c :: pm.1, pm.2)
    | _ => (pm.1, fp :: pm.2)

/-- The body-assembly loop of `generate_feature_patch`: each found body,
followed by an empty element when it does not already end in a newline. -/
def combineBodies : List String → List String
  | [] => []
  | p :: rest => (p :: (if pyEndsWith p "\n" then [] else [""])) ++ combineBodies rest

/-- `feature.generate_feature_patch`.  The triple is (returned value,
`missing_files`, `patches`): the combined text (or `None` when the feature has
no files or no patch body was found), the missing-file list and the found-body
list, the latter two in stored list order. -/
def generate_feature_patch (store : String → PatchRead) (feature_name : String)
    (feature_data : FeatureData) : Option String × List String × List String :=
  if feature_data.files = [] then (none, [], [])
  else
    let pm := collectPatches store feature_data.files
    if pm.1 = [] then (none, pm.2, pm.1)
    else
      (some (joinNl
        (["# Combined patch for feature: " ++ feature_name,
          "# Description: " ++ feature_data.description.getD "No description",
          "# Files: " ++ toString feature_data.files.length,
          ""] ++ combineBodies pm.1)),
       pm.2, pm.1)

/-! ## Concrete fixtures -/

/-- Diff text of a commit that modifies `foo.cc` and deletes `bar.h`. -/
def c2input : String := "diff --git a/foo.cc b/foo.cc\nindex 1111111..2222222 100644\n--- a/foo.cc\n+++ b/foo.cc\n@@ -1 +1 @@\n-old\n+new\ndiff --git a/bar.h b/bar.h\ndeleted file mode 100644\nindex 3333333..0000000\n--- a/bar.h\n+++ /dev/null\n@@ -1 +0,0 @@\n-gone\n"

/-- The block accumulated for `foo.cc` in `c2input`. -/
def c2fooBody : String := "diff --git a/foo.cc b/foo.cc\nindex 1111111..2222222 100644\n--- a/foo.cc\n+++ b/foo.cc\n@@ -1 +1 @@\n-old\n+new"

/-- The block accumulated for `bar.h` in `c2input` (note: the `deleted file`
line itself is not accumulated). -/
def c2barBody : String := "diff --git a/bar.h b/bar.h\nindex 3333333..0000000\n--- a/bar.h\n+++ /dev/null\n@@ -1 +0,0 @@\n-gone"

/-- Diff text with a well-formed block, then a header lacking the path tokens
(`diff --git` alone) followed by a stray line, then another well-formed block. -/
def c8input : String := "diff --git a/good1.cc b/good1.cc\n--- a/good1.cc\n+++ b/good1.cc\n@@ -1 +1 @@\n-x\n+y\ndiff --git\n--- a/dropped\ndiff --git a/good2.cc b/good2.cc\n+++ b/good2.cc\n"

/-- The block emitted for `good1.cc` in `c8input`. -/
def c8body1 : String := "diff --git a/good1.cc b/good1.cc\n--- a/good1.cc\n+++ b/good1.cc\n@@ -1 +1 @@\n-x\n+y"

/-- The block emitted for `good2.cc` in `c8input`. -/
def c8body2 : String := "diff --git a/good2.cc b/good2.cc\n+++ b/good2.cc"

/-- A patch whose strict and 3-way applies fail and whose conflict prompt is
answered with choice 3 (abort). -/
def abortEnv : PatchEnv := ⟨true, false, false, "error: patch does not apply", Choice.abort⟩

/-- A patch whose strict apply succeeds. -/
def okEnv : PatchEnv := ⟨true, true, false, "", Choice.fix⟩

/-- A patch whose strict and 3-way applies fail, in a non-interactive run
(the conflict choice is never consulted). -/
def plainFailEnv : PatchEnv := ⟨true, false, false, "error: patch failed", Choice.fix⟩

/-- Batch items used in the batch-loop scenarios. -/
def okP1 : BatchItem := ⟨"p1", okEnv, true⟩

def abortP1 : BatchItem := ⟨"p1", abortEnv, true⟩

def okP2 : BatchItem := ⟨"p2", okEnv, true⟩

def failP2 : BatchItem := ⟨"p2", plainFailEnv, true⟩

def okP3 : BatchItem := ⟨"p3", okEnv, true⟩

/-- Patch store for the 3-file feature scenario: `a.cc` and `c.cc` have patch
bodies, `b.cc` is missing. -/
def c7store : String → PatchRead := fun fp =>
  if fp = "a.cc" then PatchRead.ok "B1"
  else if fp = "c.cc" then PatchRead.ok "B3"
  else PatchRead.notFound

/-- A 3-file feature. -/
def c7fd : FeatureData := ⟨some "desc", ["a.cc", "b.cc", "c.cc"]⟩

/-- The combined patch generated for `c7fd` against `c7store`. -/
def c7output : String := "# Combined patch for feature: feat\n# Description: desc\n# Files: 3\n\nB1\n\nB3\n"

/-- A key that the diff parser may legitimately emit: it comes from a
well-formed `diff --git` header line of the input. -/
def keyFromHeader (L : List String) (k : String) : Prop :=
  ∃ line ∈ L, pyStartsWith line "diff --git" = true ∧
    (pySplit line).length ≥ 3 ∧ k = headerPath line

/-- Parser loop invariant: every emitted key, and the current file when set and
truthy, comes from a well-formed header line of `L`. -/
def parseInv (L : List String) (st : ParseState) : Prop :=
  (∀ kv ∈ st.patches, keyFromHeader L kv.1) ∧
  (∀ cf : String, st.current_file = some cf → cf ≠ "" → keyFromHeader L cf)

/-! ## Helper lemmas -/

theorem dictGet_dictInsert_self {α : Type} (m : List (String × α)) (k : String) (v : α) :
    dictGet (dictInsert m k v) k = some v := by
  induction m with
  | nil => simp [dictInsert, dictGet]
  | cons p rest ih =>
    by_cases h : p.1 = k
    · simp [dictInsert, dictGet, h]
    · simp [dictInsert, dictGet, h, ih]

theorem mem_dictInsert {α : Type} {m : List (String × α)} {k : String} {v : α}
    {kv : String × α} (h : kv ∈ dictInsert m k v) : kv = (k, v) ∨ kv ∈ m := by
  induction m with
  | nil => simpa [dictInsert] using h
  | cons p rest ih =>
    by_cases hp : p.1 = k
    · simp only [dictInsert, if_pos hp, List.mem_cons] at h
      rcases h with h | h
      · exact Or.inl h
      · exact Or.inr (List.mem_cons_of_mem _ h)
    · simp only [dictInsert, if_neg hp, List.mem_cons] at h
      rcases h with h | h
      · exact Or.inr (by simp [h])
      · rcases ih h with h' | h'
        · exact Or.inl h'
        · exact Or.inr (List.mem_cons_of_mem _ h')

theorem all_mem_true {changed l : List String} (h : ∀ c ∈ changed, c ∈ l) :
    (changed.all fun c => decide (c ∈ l)) = true :=
  List.all_eq_true.mpr fun c hc => decide_eq_true (h c hc)

theorem filter_false_length_zero_iff (R : List (String × Bool × String)) :
    ((R.filter (fun r => decide (r.2.1 = false))).length = 0) ↔ ∀ r ∈ R, r.2.1 = true := by
  rw [List.length_eq_zero, List.filter_eq_nil_iff]
  constructor
  · intro h r hr
    have := h r hr
    simpa using this
  · intro h r hr
    simp [h r hr]

theorem exists_failed_iff (R : List (String × Bool × String)) :
    (¬ ((R.filter (fun r => decide (r.2.1 = false))).length = 0)) ↔ ∃ r ∈ R, r.2.1 = false := by
  rw [filter_false_length_zero_iff]
  push_neg
  constructor
  · rintro ⟨r, hr, hne⟩
    exact ⟨r, hr, by simpa using hne⟩
  · rintro ⟨r, hr, hfalse⟩
    exact ⟨r, hr, by simp [hfalse]⟩

theorem collectPatches_eq (store : String → PatchRead) (files : List String) :
    collectPatches store files =
      (files.filterMap (fun fp => readBody (store fp)),
       files.filter (fun fp => isMissingRead (store fp))) := by
  induction files with
  | nil => rfl
  | cons fp rest ih =>
    simp only [collectPatches, ih]
    cases h : store fp <;> simp [readBody, isMissingRead, h, List.filterMap_cons, List.filter_cons]

theorem flushCurrent_keys {L : List String} {st : ParseState} (h : parseInv L st) :
    ∀ kv ∈ flushCurrent st, keyFromHeader L kv.1 := by
  intro kv hkv
  cases hst : st.current_file with
  | none =>
    simp only [flushCurrent, hst] at hkv
    exact h.1 kv hkv
  | some cf =>
    simp only [flushCurrent, hst] at hkv
    by_cases hc : cf ≠ "" ∧ st.current_patch ≠ []
    · rw [if_pos hc] at hkv
      rcases mem_dictInsert hkv with h' | hm
      · subst h'
        exact h.2 cf hst hc.1
      · exact h.1 kv hm
    · rw [if_neg hc] at hkv
      exact h.1 kv hkv

theorem markDeleted_inv {L : List String} {st : ParseState} (h : parseInv L st) :
    parseInv L (markDeleted st) := by
  cases hst : st.current_file with
  | none => simpa only [markDeleted, hst] using h
  | some cf =>
    by_cases hc : cf ≠ ""
    · constructor
      · intro kv hkv
        simp only [markDeleted, hst, if_pos hc] at hkv
        rcases mem_dictInsert hkv with h' | hm
        · subst h'
          exact h.2 cf hst hc
        · exact h.1 kv hm
      · intro cf' hcf' hne
        simp only [markDeleted, hst, if_pos hc] at hcf'
        have heq : cf = cf' := by injection hcf'
        subst heq
        exact h.2 cf hst hne
    · simpa only [markDeleted, hst, if_neg hc] using h

theorem accumulateLine_inv {L : List String} {st : ParseState} {line : String}
    (h : parseInv L st) : parseInv L (accumulateLine st line) := by
  cases hst : st.current_file with
  | none => simpa only [accumulateLine, hst] using h
  | some cf =>
    by_cases hc : cf ≠ ""
    · constructor
      · intro kv hkv
        simp only [accumulateLine, hst, if_pos hc] at hkv
        exact h.1 kv hkv
      · intro cf' hcf' hne
        simp only [accumulateLine, hst, if_pos hc] at hcf'
        have heq : cf = cf' := by injection hcf'
        subst heq
        exact h.2 cf hst hne
    · simpa only [accumulateLine, hst, if_neg hc] using h

theorem processLine_inv {L : List String} {st : ParseState} {line : String}
    (hline : line ∈ L) (h : parseInv L st) : parseInv L (processLine st line) := by
  by_cases h1 : pyStartsWith line "diff --git" = true
  · by_cases h2 : (pySplit line).length ≥ 3
    · simp only [processLine, h1, if_true, if_pos h2]
      constructor
      · intro kv hkv
        exact flushCurrent_keys h kv hkv
      · intro cf' hcf' _
        refine ⟨line, hline, h1, h2, ?_⟩
        simpa using hcf'.symm
    · simp only [processLine, h1, if_true, if_neg h2]
      constructor
      · intro kv hkv
        exact flushCurrent_keys h kv hkv
      · intro cf' hcf'
        simp at hcf'
  · by_cases h3 : pyStartsWith line "deleted file" = true
    · simp only [processLine, h1, h3, if_true, Bool.false_eq_true, if_false]
      exact markDeleted_inv h
    · simp only [processLine, h1, h3, Bool.false_eq_true, if_false]
      exact accumulateLine_inv h

theorem parseLines_inv {L : List String} :
    ∀ (lines : List String) (st : ParseState), (∀ l ∈ lines, l ∈ L) →
      parseInv L st → parseInv L (parseLines lines st) := by
  intro lines
  induction lines with
  | nil => intro st _ h; exact h
  | cons l rest ih =>
    intro st hsub h
    exact ih (processLine st l) (fun x hx => hsub x (List.mem_cons_of_mem _ hx))
      (processLine_inv (hsub l (List.mem_cons_self _ _)) h)

theorem finalFlush_keys {L : List String} {st : ParseState} (h : parseInv L st) :
    ∀ kv ∈ finalFlush st, keyFromHeader L kv.1 := by
  intro kv hkv
  cases hst : st.current_file with
  | none =>
    simp only [finalFlush, hst] at hkv
    exact h.1 kv hkv
  | some cf =>
    simp only [finalFlush, hst] at hkv
    by_cases hc : cf ≠ ""
    · rw [if_pos hc] at hkv
      by_cases hp : st.current_patch ≠ []
      · rw [if_pos hp] at hkv
        rcases mem_dictInsert hkv with h' | hm
        · subst h'
          exact h.2 cf hst hc
        · exact h.1 kv hm
      · rw [if_neg hp] at hkv
        by_cases hk : dictHasKey st.patches cf = true
        · rw [if_pos hk] at hkv
          exact h.1 kv hkv
        · rw [if_neg hk] at hkv
          rcases mem_dictInsert hkv with h' | hm
          · subst h'
            exact h.2 cf hst hc
          · exact h.1 kv hm
    · rw [if_neg hc] at hkv
      exact h.1 kv hkv

theorem parse_diff_output_keys {s : String} {kv : String × Option String}
    (h : kv ∈ parse_diff_output s) : keyFromHeader (splitlines s) kv.1 := by
  have hinv : parseInv (splitlines s) (parseLines (splitlines s) ⟨[], none, []⟩) :=
    parseLines_inv (splitlines s) ⟨[], none, []⟩ (fun _ hx => hx)
      ⟨fun kv hkv => absurd hkv (List.not_mem_nil kv), fun cf hcf => by simp at hcf⟩
  exact finalFlush_keys hinv kv h

/-! ## Claim theorems -/

/-- C1 (code behavior at the failing input): in both the whole-directory and
the feature-scoped batch loop, when `continue_on_error` is set, a patch whose
conflict is resolved as abort ("Aborted by user") does NOT halt the batch: the
next patch is still attempted.  The break in the source is guarded by
`not continue_on_error and "Aborted" in message`, so the abort failure does
not override continue-on-error as the claim requires. -/
theorem c1_abort_does_not_halt_with_continue :
    (apply_all_patches true true [abortP1, okP2] false false true true).2
      = [("p1", false, "Aborted by user"), ("p2", true, "Applied: p2")] ∧
    apply_feature_loop [abortP1, okP2] false true true
      = [("p1", false, "Aborted by user"), ("p2", true, "Applied: p2")] := by
  decide

/-- C2 (code behavior at the failing input): parsing a diff that modifies
`foo.cc` and deletes `bar.h` yields `bar.h` mapped to an accumulated patch
body, not to the deletion tag `none`.  The `deleted file` branch does set the
entry to `none`, but `current_patch` (which already holds the header line)
keeps accumulating, and the flush at the next header or at end of input
overwrites the entry with the joined body. -/
theorem c2_deletion_marker_overwritten :
    parse_diff_output c2input = [("foo.cc", some c2fooBody), ("bar.h", some c2barBody)] ∧
    dictGet (parse_diff_output c2input) "bar.h" = some (some c2barBody) ∧
    dictGet (parse_diff_output c2input) "bar.h" ≠ some none := by
  decide

/-- C5 (code behavior at the failing input): when `features.yaml` exists but
`yaml.safe_load` raises, `load_features_yaml` swallows the error and returns
the empty registry, and `feature add` then proceeds to mutate and SAVE: the
document handed to `save_features_yaml` contains only the newly created
feature, so a save does occur after a failed load (clobbering the unreadable
document) instead of the command being fatal. -/
theorem c5_save_after_failed_load :
    add_feature_from_commit ⟨0, "file1.cc\n"⟩ LoadResult.failed "myfeat" "abc123" none
      = (true, some [("myfeat", ⟨some "Feature added from commit abc123", ["file1.cc"]⟩)]) := by
  decide

/-- C6 counterexample: `feature add` with a nonexistent revision (the
`git diff-tree` listing fails with exit status 1) does NOT fail: the command
returns `True` and exits with status 0, contradicting the claim that it
"fails".  (The registry is indeed left unmodified: no save occurs.) -/
theorem c6_nonexistent_revision_reports_success :
    (add_feature_from_commit ⟨1, ""⟩ (LoadResult.ok [("other", ⟨some "d", ["x.cc"]⟩)])
        "myfeat" "deadbeef" none).1 = true ∧
    ¬ ((add_feature_from_commit ⟨1, ""⟩ (LoadResult.ok [("other", ⟨some "d", ["x.cc"]⟩)])
        "myfeat" "deadbeef" none).1 = false) ∧
    feature_add_exit (add_feature_from_commit ⟨1, ""⟩
        (LoadResult.ok [("other", ⟨some "d", ["x.cc"]⟩)]) "myfeat" "deadbeef" none).1 = 0 := by
  decide

/-- C6 (amended): for every `feature add` whose revision lookup fails (the
name-only listing subprocess exits non-zero), the error is reported, the
feature registry is not modified (no save occurs), and the command returns
success (`True`, exit status 0) rather than failing. -/
theorem c6_failed_listing_no_save_but_success (res : GitResult) (loadRes : LoadResult)
    (feature_name commit_hash : String) (description : Option String)
    (h : res.returncode ≠ 0) :
    add_feature_from_commit res loadRes feature_name commit_hash description = (true, none) ∧
    feature_add_exit (add_feature_from_commit res loadRes feature_name commit_hash
      description).1 = 0 := by
  have hchanged : get_commit_changed_files res = [] := by
    simp [get_commit_changed_files, h]
  constructor
  · simp [add_feature_from_commit, hchanged]
  · simp [add_feature_from_commit, hchanged, feature_add_exit]

/-- C6 witness: the amended theorem at a concrete failing git listing. -/
theorem c6_failed_listing_witness :
    add_feature_from_commit ⟨1, ""⟩ LoadResult.missing "f" "rev" none = (true, none) :=
  (c6_failed_listing_no_save_but_success ⟨1, ""⟩ LoadResult.missing "f" "rev" none
    (by decide)).1

/-- C10: with a valid repository, if the patches directory does not exist, or
it exists but contains no patch files, `apply_all_patches` attempts nothing,
its result list is empty, the aggregate result is `True`, and the process
exit status is 0. -/
theorem c10_missing_or_empty_patches_dir_succeeds :
    (∀ (items : List BatchItem) (ce dr coe inter : Bool),
      apply_all_patches true false items ce dr coe inter = (true, [])) ∧
    (∀ (ce dr coe inter : Bool),
      apply_all_patches true true [] ce dr coe inter = (true, [])) ∧
    (∀ coe : Bool, apply_all_exit true coe = 0) := by
  refine ⟨fun items ce dr coe inter => ?_, fun ce dr coe inter => ?_, fun coe => ?_⟩ <;>
    simp [apply_all_patches, apply_all_exit]

/-- C3 counterexample: an ordered three-patch batch where patch 2 fails both
automated strategies (non-interactively, so its message is
"Failed: ... - ..." without the abort tag) and `continue_on_error` is false
does NOT halt after patch 2: patch 3 is still attempted, so the result list
has three entries, contradicting the claim that the batch halts at the first
item failing both strategies.  (The aggregate result is failure, as the claim
also says.) -/
theorem c3_plain_failure_does_not_halt :
    (apply_all_patches true true [okP1, failP2, okP3] false false false false).2
      = [("p1", true, "Applied: p1"), ("p2", false, "Failed: p2 - error: patch failed"),
         ("p3", true, "Applied: p3")] ∧
    ((apply_all_patches true true [okP1, failP2, okP3] false false false false).2).length = 3 ∧
    (apply_all_patches true true [okP1, failP2, okP3] false false false false).1 = false := by
  decide

/-- C3 (amended): with `continue_on_error` false, the batch halts exactly at
the first failure whose message contains "Aborted" (the user's abort choice):
such a failure ends the result list there and nothing after it is attempted;
a failure without the abort tag is recorded and the loop continues with the
remaining items; and the aggregate result is failure whenever any attempted
item failed. -/
theorem c3_halt_only_on_abort :
    (∀ (it : BatchItem) (rest : List BatchItem) (inter : Bool) (msg : String),
      apply_single_patch it.rel it.env inter = (false, msg) →
      ((pyIn "Aborted" msg = true →
          apply_loop (it :: rest) false false inter = [(it.rel, false, msg)]) ∧
       (pyIn "Aborted" msg = false →
          apply_loop (it :: rest) false false inter =
            (it.rel, false, msg) :: apply_loop rest false false inter))) ∧
    (∀ (items : List BatchItem) (ce inter : Bool) (r : String × Bool × String),
      r ∈ apply_loop items false false inter → r.2.1 = false →
      (apply_all_patches true true items ce false false inter).1 = false) := by
  constructor
  · intro it rest inter msg h
    constructor
    · intro habort
      simp [apply_loop, h, habort]
    · intro habort
      simp [apply_loop, h, habort]
  · intro items ce inter r hr hfail
    have hne : items ≠ [] := by
      intro hnil
      rw [hnil] at hr
      simp [apply_loop] at hr
    have hmem : r ∈ (apply_loop items false false inter).filter
        (fun x => decide (x.2.1 = false)) :=
      List.mem_filter.mpr ⟨hr, by simp [hfail]⟩
    have hlen : ((apply_loop items false false inter).filter
        (fun x => decide (x.2.1 = false))).length ≠ 0 := by
      intro h0
      rw [List.length_eq_zero] at h0
      rw [h0] at hmem
      exact absurd hmem (List.not_mem_nil r)
    have hA1 : (apply_all_patches true true items ce false false inter).1 =
        (decide (((apply_loop items false false inter).filter
          (fun x => decide (x.2.1 = false))).length = 0) || false) := by
      simp [apply_all_patches, hne]
    rw [hA1, decide_eq_false hlen]
    rfl

/-- C3 witness: the amended halting rule at a concrete aborting patch. -/
theorem c3_halt_only_on_abort_witness :
    apply_loop [abortP1, okP2] false false true = [("p1", false, "Aborted by user")] :=
  (c3_halt_only_on_abort.1 abortP1 [okP2] true "Aborted by user" (by decide)).1 (by decide)

/-- C4: with a valid repository, the aggregate boolean result of
`apply_all_patches` is true iff every attempted item succeeded or
continue-on-error was requested, and the process exit status is non-zero iff
some attempted item failed and continue-on-error was not requested. -/
theorem c4_aggregate_and_exit_status :
    ∀ (dirFound : Bool) (items : List BatchItem) (ce dr coe inter : Bool),
      (((apply_all_patches true dirFound items ce dr coe inter).1 = true) ↔
        ((∀ r ∈ (apply_all_patches true dirFound items ce dr coe inter).2, r.2.1 = true) ∨
          coe = true)) ∧
      ((apply_all_exit (apply_all_patches true dirFound items ce dr coe inter).1 coe ≠ 0) ↔
        ((∃ r ∈ (apply_all_patches true dirFound items ce dr coe inter).2, r.2.1 = false) ∧
          coe = false)) := by
  intro dirFound items ce dr coe inter
  cases dirFound with
  | false =>
    constructor
    · simp [apply_all_patches]
    · simp [apply_all_patches, apply_all_exit]
  | true =>
    by_cases hnil : items = []
    · subst hnil
      constructor
      · simp [apply_all_patches]
      · simp [apply_all_patches, apply_all_exit]
    · have hA1 : (apply_all_patches true true items ce dr coe inter).1 =
          (decide (((apply_loop items dr coe inter).filter
            (fun r => decide (r.2.1 = false))).length = 0) || coe) := by
        simp [apply_all_patches, hnil]
      have hA2 : (apply_all_patches true true items ce dr coe inter).2 =
          apply_loop items dr coe inter := by
        simp [apply_all_patches, hnil]
      rw [hA1, hA2]
      constructor
      · simp only [Bool.or_eq_true, decide_eq_true_eq]
        rw [filter_false_length_zero_iff]
      · cases coe with
        | true => simp [apply_all_exit]
        | false =>
          constructor
          · intro hne
            have hd : decide (((apply_loop items dr false inter).filter
                (fun r => decide (r.2.1 = false))).length = 0) = false := by
              by_contra hcon
              rw [Bool.not_eq_false] at hcon
              rw [hcon] at hne
              simp [apply_all_exit] at hne
            refine ⟨?_, rfl⟩
            exact (exists_failed_iff (apply_loop items dr false inter)).mp
              (of_decide_eq_false hd)
          · intro hex
            have hd : decide (((apply_loop items dr false inter).filter
                (fun r => decide (r.2.1 = false))).length = 0) = false :=
              decide_eq_false ((exists_failed_iff (apply_loop items dr false inter)).mpr hex.1)
            rw [hd]
            simp [apply_all_exit]

/-- C4 witness: a concrete failing batch without continue-on-error exits
non-zero. -/
theorem c4_aggregate_and_exit_status_witness :
    apply_all_exit (apply_all_patches true true [failP2] false false false false).1 false ≠ 0 :=
  (c4_aggregate_and_exit_status true [failP2] false false false false).2.mpr
    ⟨⟨("p2", false, "Failed: p2 - error: patch failed"), by decide, by decide⟩, rfl⟩

theorem all_mem_iff {changed l : List String} :
    ((changed.all fun c => decide (c ∈ l)) = true) ↔ (∀ c ∈ changed, c ∈ l) := by
  rw [List.all_eq_true]
  constructor
  · intro h c hc
    exact of_decide_eq_true (h c hc)
  · intro h c hc
    exact decide_eq_true (h c hc)

theorem generate_components (store : String → PatchRead) (feature_name : String)
    (fd : FeatureData) :
    (generate_feature_patch store feature_name fd).2.1 =
      fd.files.filter (fun fp => isMissingRead (store fp)) ∧
    (generate_feature_patch store feature_name fd).2.2 =
      fd.files.filterMap (fun fp => readBody (store fp)) := by
  unfold generate_feature_patch
  by_cases hf : fd.files = []
  · rw [if_pos hf, hf]
    simp
  · rw [if_neg hf, collectPatches_eq store fd.files]
    by_cases hp : (fd.files.filterMap (fun fp => readBody (store fp))) = []
    · simp [hp]
    · simp [hp]

/-- C7: `generate_feature_patch` collects the missing files and the found
bodies in stored list order (`missing` is exactly the non-readable files,
`patches` exactly the readable bodies), and it returns `None` exactly when
zero bodies were found.  Concretely, on a 3-file feature with one patch
missing it returns the header (feature name, description, file count 3)
followed by exactly the other two bodies, reporting exactly one missing
entry, and with all three patches absent it fails. -/
theorem c7_generate_contract :
    (∀ (store : String → PatchRead) (feature_name : String) (fd : FeatureData),
      ((generate_feature_patch store feature_name fd).1 = none ↔
        (generate_feature_patch store feature_name fd).2.2 = [])) ∧
    (∀ (store : String → PatchRead) (feature_name : String) (fd : FeatureData),
      (generate_feature_patch store feature_name fd).2.1 =
        fd.files.filter (fun fp => isMissingRead (store fp)) ∧
      (generate_feature_patch store feature_name fd).2.2 =
        fd.files.filterMap (fun fp => readBody (store fp))) ∧
    generate_feature_patch c7store "feat" c7fd = (some c7output, ["b.cc"], ["B1", "B3"]) ∧
    generate_feature_patch (fun _ => PatchRead.notFound) "feat" c7fd
      = (none, ["a.cc", "b.cc", "c.cc"], []) ∧
    pyIn "B1" c7output = true ∧ pyIn "B3" c7output = true ∧ c7output ≠ "" := by
  refine ⟨?_, ?_, by decide, by decide, by decide, by decide, by decide⟩
  · intro store feature_name fd
    unfold generate_feature_patch
    by_cases hf : fd.files = []
    · rw [if_pos hf]
      simp [hf]
    · rw [if_neg hf]
      by_cases hp : (collectPatches store fd.files).1 = []
      · simp [hp]
      · simp [hp]
  · intro store feature_name fd
    exact generate_components store feature_name fd

/-- C7 witness: with zero of the three patches present, generation fails. -/
theorem c7_generate_contract_witness :
    (generate_feature_patch (fun _ => PatchRead.notFound) "feat" c7fd).1 = none :=
  (c7_generate_contract.1 (fun _ => PatchRead.notFound) "feat" c7fd).mpr (by decide)

/-- C8: the diff parser is total and never raises; empty input yields the
empty mapping; every emitted entry's key comes from a well-formed
`diff --git` header line of the input (at least 3 whitespace tokens), so a
block whose header lacks the path tokens emits no entry and input without any
parsable header yields the empty mapping; and on an input mixing two
well-formed blocks around a bad-header block, exactly the two well-formed
blocks are emitted. -/
theorem c8_parser_never_raises_and_drops_bad_blocks :
    parse_diff_output "" = [] ∧
    (∀ (s : String) (kv : String × Option String), kv ∈ parse_diff_output s →
      ∃ line ∈ splitlines s, pyStartsWith line "diff --git" = true ∧
        (pySplit line).length ≥ 3 ∧ kv.1 = headerPath line) ∧
    (∀ s : String, (∀ line ∈ splitlines s, pyStartsWith line "diff --git" = false) →
      parse_diff_output s = []) ∧
    parse_diff_output c8input = [("good1.cc", some c8body1), ("good2.cc", some c8body2)] := by
  refine ⟨by decide, ?_, ?_, by decide⟩
  · intro s kv hkv
    have h' := parse_diff_output_keys hkv
    unfold keyFromHeader at h'
    exact h'
  · intro s hnone
    rw [List.eq_nil_iff_forall_not_mem]
    intro kv hkv
    have h' := parse_diff_output_keys hkv
    unfold keyFromHeader at h'
    obtain ⟨line, hline, hgood, _, _⟩ := h'
    rw [hnone line hline] at hgood
    exact Bool.false_ne_true hgood

/-- C8 witness: input with no parsable diff header yields the empty mapping. -/
theorem c8_parser_never_raises_witness :
    parse_diff_output "hello\nworld" = [] :=
  c8_parser_never_raises_and_drops_bad_blocks.2.2.1 "hello\nworld" (by decide)

/-- C9: `feature add` is idempotent on the file set: performing the same
update twice (same feature, same changed-file list) yields the same registry
as performing it once — both at the level of the in-memory mutation
(`feature_add_update`) and of a whole `feature add` invocation
(`add_registry_step`) — and re-adding paths that are all already present is a
no-op on the registry. -/
theorem c9_feature_add_idempotent :
    (∀ (features : Features) (feature_name : String) (changed : List String)
       (desc : Option String) (commit : String),
      feature_add_update (feature_add_update features feature_name changed desc commit)
          feature_name changed desc commit
        = feature_add_update features feature_name changed desc commit) ∧
    (∀ (reg : Features) (feature_name : String) (changed : List String)
       (desc : Option String) (commit : String),
      add_registry_step (add_registry_step reg feature_name changed desc commit)
          feature_name changed desc commit
        = add_registry_step reg feature_name changed desc commit) ∧
    (∀ (features : Features) (feature_name : String) (fd : FeatureData)
       (changed : List String) (desc : Option String) (commit : String),
      dictGet features feature_name = some fd → (∀ c ∈ changed, c ∈ fd.files) →
      feature_add_update features feature_name changed desc commit = features) := by
  have hnoop : ∀ (features : Features) (feature_name : String) (fd : FeatureData)
      (changed : List String) (desc : Option String) (commit : String),
      dictGet features feature_name = some fd → (∀ c ∈ changed, c ∈ fd.files) →
      feature_add_update features feature_name changed desc commit = features := by
    intro features feature_name fd changed desc commit hget hall
    simp only [feature_add_update, hget]
    rw [if_pos (all_mem_iff.mpr hall)]
  have key : ∀ (features : Features) (feature_name : String) (changed : List String)
      (desc : Option String) (commit : String),
      feature_add_update (feature_add_update features feature_name changed desc commit)
        feature_name changed desc commit
        = feature_add_update features feature_name changed desc commit := by
    intro features feature_name changed desc commit
    cases hget : dictGet features feature_name with
    | none =>
      have h1 : feature_add_update features feature_name changed desc commit =
          dictInsert features feature_name
            ⟨some (pyOrDefault desc ("Feature added from commit " ++ commit)), changed⟩ := by
        simp only [feature_add_update, hget]
      rw [h1]
      exact hnoop _ _ ⟨some (pyOrDefault desc ("Feature added from commit " ++ commit)), changed⟩
        changed desc commit (dictGet_dictInsert_self _ _ _) (fun c hc => hc)
    | some fd =>
      by_cases hall : ∀ c ∈ changed, c ∈ fd.files
      · rw [hnoop features feature_name fd changed desc commit hget hall,
            hnoop features feature_name fd changed desc commit hget hall]
      · have h1 : feature_add_update features feature_name changed desc commit =
            dictInsert features feature_name
              ⟨if descTruthy desc then desc else fd.description,
               (fd.files ++ changed).dedup⟩ := by
          simp only [feature_add_update, hget]
          rw [if_neg (fun hcon => hall (all_mem_iff.mp hcon))]
        rw [h1]
        refine hnoop _ _ ⟨if descTruthy desc then desc else fd.description,
          (fd.files ++ changed).dedup⟩ changed desc commit (dictGet_dictInsert_self _ _ _) ?_
        intro c hc
        rw [List.mem_dedup]
        exact List.mem_append_right _ hc
  refine ⟨key, ?_, hnoop⟩
  intro reg feature_name changed desc commit
  by_cases hch : changed = []
  · simp [add_registry_step, hch]
  · simp only [add_registry_step, if_neg hch]
    exact key reg feature_name changed desc commit

/-- C9 witness: re-adding an already-present path leaves the registry
unchanged. -/
theorem c9_feature_add_idempotent_witness :
    feature_add_update [("f", ⟨some "d", ["a.cc"]⟩)] "f" ["a.cc"] none "c1"
      = [("f", ⟨some "d", ["a.cc"]⟩)] :=
  c9_feature_add_idempotent.2.2 [("f", ⟨some "d", ["a.cc"]⟩)] "f" ⟨some "d", ["a.cc"]⟩
    ["a.cc"] none "c1" (by decide) (fun c hc => hc)

/-- C10 witness: a concrete missing-directory run returns success with no
results. -/
theorem c10_missing_or_empty_patches_dir_witness :
    apply_all_patches true false [okP1] false false false false = (true, []) :=
  c10_missing_or_empty_patches_dir_succeeds.1 [okP1] false false false false
